import Mathlib

/-!
Verification development for the `fl-bgr-soil` sampling-and-aggregation core
(`src/main.py`).  The Python functions are shallowly embedded as executable
Lean definitions; Python `float` values are modelled as exact rationals `ℚ`,
and Python's `round` (round-half-to-even, as used by `round(x, n)` and
`f"{x:.nf}"` formatting) is modelled by `rhe` below.  Fallible code
(exceptions) is modelled with `Except String`.  External collaborators
(the WMS HTTP fetch, shapely's polygon-containment test, the PRNG stream
obtained from `random.seed`/`random.uniform`) are passed in as function
parameters, exactly at the boundaries where the source calls them.
-/

namespace FlBgrSoil

attribute [local semireducible] Rat.mul Rat.add Rat.sub Rat.inv Rat.ofScientific

deriving instance DecidableEq for Except

/-- A sample point `(lon, lat)`; Python floats modelled as rationals. -/
abbrev Pt := ℚ × ℚ

/-! ### Kernel-computable string primitives

The embedding uses character-list implementations of the Python `str`
operations it needs (`strip`, `lower`, `upper`, `in`, `endswith`, slicing,
`replace(",", ".")`), so that every definition in this file evaluates inside
the kernel.  Case mapping is ASCII, which covers all field names and codes
the source manipulates. -/

/-- Python `s.lower()` (ASCII case fold). -/
def strLower (s : String) : String := ⟨s.data.map Char.toLower⟩

/-- Python `s.upper()` (ASCII case fold). -/
def strUpper (s : String) : String := ⟨s.data.map Char.toUpper⟩

/-- Python `s.strip()`. -/
def strTrim (s : String) : String :=
  ⟨((s.data.dropWhile Char.isWhitespace).reverse.dropWhile Char.isWhitespace).reverse⟩

/-- Python `s[:n]`. -/
def strTake (s : String) (n : ℕ) : String := ⟨s.data.take n⟩

/-- Python `s.replace(",", ".")`. -/
def commaToDot (s : String) : String :=
  ⟨s.data.map (fun c => if c = ',' then '.' else c)⟩

/-- Whether `pre` is a prefix of `l`. -/
def prefixOfList : List Char → List Char → Bool
  | [], _ => true
  | _ :: _, [] => false
  | a :: as, b :: bs => a == b && prefixOfList as bs

/-- Whether `needle` occurs as a contiguous sublist of `hay`. -/
def hasSubstr : List Char → List Char → Bool
  | [], needle => needle.isEmpty
  | h :: t, needle => prefixOfList needle (h :: t) || hasSubstr t needle

/-- Python `suffix` test `s.endswith(t)` / regex `t$`. -/
def strEndsWith (s suffix : String) : Bool := suffix.data.isSuffixOf s.data

/-! ## Rounding

Python's `round(x, ndigits)` rounds half to even.  `rhe q` is the integer
nearest to `q`, ties to even; `round2`/`round3` are `round(x, 2)`/`round(x, 3)`. -/

/-- Round half to even: the integer nearest to `q`, ties going to the even one. -/
def rhe (q : ℚ) : ℤ :=
  if q - ⌊q⌋ < 1/2 then ⌊q⌋
  else if 1/2 < q - ⌊q⌋ then ⌊q⌋ + 1
  else if ⌊q⌋ % 2 = 0 then ⌊q⌋ else ⌊q⌋ + 1

/-- Python `round(x, 2)`. -/
def round2 (q : ℚ) : ℚ := (rhe (100 * q) : ℚ) / 100

/-- Python `round(x, 3)`. -/
def round3 (q : ℚ) : ℚ := (rhe (1000 * q) : ℚ) / 1000

/-! ## 0) CONFIG (src/main.py lines 55-100) -/

/-- `MAX_FEATURE_CALLS` default (env default "60"). -/
def MAX_FEATURE_CALLS : ℕ := 60

/-- `MAX_SAMPLES` default (env default "80"). -/
def MAX_SAMPLES : ℕ := 80

/-- `QUALITY_TO_SAMPLES` dict, in insertion order. -/
def QUALITY_TO_SAMPLES : List (String × ℕ) :=
  [("fast", 15), ("standard", 25), ("detailed", 50)]

/-- Dictionary lookup in `QUALITY_TO_SAMPLES`. -/
def qualityLookup (q : String) : Option ℕ :=
  (QUALITY_TO_SAMPLES.find? (fun kv => kv.1 == q)).map (·.2)

/-- `BOART_CODE_TO_LABEL_DE` dict, in insertion order. -/
def BOART_CODE_TO_LABEL_DE : List (String × String) :=
  [ ("ss", "Reinsande (ss)")
  , ("ls", "Lehmsande (ls)")
  , ("us", "Schluffsande (us)")
  , ("sl", "Sandlehme (sl)")
  , ("ll", "Normallehme (ll)")
  , ("tl", "Tonlehme (tl)")
  , ("lu", "Lehmschluffe (lu)")
  , ("tu", "Tonschluffe (tu)")
  , ("ut", "Schlufftone (ut)")
  , ("mo", "Moore (mo)")
  , ("watt", "Watt")
  , ("siedlung", "Siedlung")
  , ("abbau", "Abbauflächen")
  , ("gewaesser", "Gewässer")
  , ("gewässer", "Gewässer")
  , ("sonstige", "Sonstige Flächen") ]

/-- Membership / lookup for the BOART dict (`code in BOART_CODE_TO_LABEL_DE`). -/
def boartLookup (c : String) : Option String :=
  (BOART_CODE_TO_LABEL_DE.find? (fun kv => kv.1 == c)).map (·.2)

/-! ## api_analyze: quality parsing (lines 924-926, 942-947) -/

/-- `quality = (payload.get("quality") or "standard").strip().lower();
    if quality not in QUALITY_TO_SAMPLES: quality = "standard"`.
The `Option String` input is `payload.get("quality")` (`none` = field missing);
Python's `or` replaces the falsy values `None` and `""` by `"standard"`. -/
def parse_quality (q : Option String) : String :=
  let raw := match q with
    | none => "standard"
    | some s => if s = "" then "standard" else s
  let norm := strLower (strTrim raw)
  if (QUALITY_TO_SAMPLES.find? (fun kv => kv.1 == norm)).isSome then norm
  else "standard"

/-- `requested_samples = int(QUALITY_TO_SAMPLES[quality])` for the parsed quality. -/
def requested_of (q : Option String) : ℕ :=
  (qualityLookup (parse_quality q)).getD 0

/-- The call-budget computation of `api_analyze` (lines 940-947):
`n_sources = max(1, len(sources_to_run))`;
`requested_samples = max(5, min(requested, MAX_SAMPLES))`;
`max_samples_budget = max(5, MAX_FEATURE_CALLS // n_sources)`;
`effective_samples = min(requested_samples, max_samples_budget)`. -/
def api_budget (requested_raw n_sources_raw : ℕ) : ℕ :=
  let n_sources := max 1 n_sources_raw
  let requested_samples := max 5 (min requested_raw MAX_SAMPLES)
  let max_samples_budget := max 5 (MAX_FEATURE_CALLS / n_sources)
  min requested_samples max_samples_budget

/-! ## 2) HTTP / URL HELPERS – the pure value helpers (lines 205-305) -/

/-- A raw attribute value from the per-point fetch response: a JSON string,
a JSON number, or JSON `null` (Python `None`).  The spec's RawAttributeSet
values are "string, number, or absent". -/
inductive Val where
  | vStr (s : String)
  | vNum (q : ℚ)
  | vNull
deriving DecidableEq

/-- `str(v)` for a raw value.  Only ever consulted on non-numeric values in
the embedded paths (numeric values are filtered out before stringification
by `_pick_attr` in the categorical path), so the exact float-repr of `vNum`
is irrelevant; `toString` stands in for it. -/
def strOfVal : Val → String
  | .vStr s => s
  | .vNum q => toString q
  | .vNull => "None"

/-- Substring test: `needle in hay` (Python `in` on `str`). -/
def strContains (hay needle : String) : Bool :=
  hasSubstr hay.data needle.data

/-- `_canon_key`: `(k or "").strip().lower()`. -/
def _canon_key (k : String) : String := strLower (strTrim k)

/-- `TECH_FIELD_RX.search(k)`: the technical-field pattern, searched
case-insensitively.  The regex alternation
`shape(_)?(area|len(gth)?)|objectid|fid|gid|id$|globalid|perimeter|created|
updated|editor|timestamp|st_area|st_length|geom|geometry` is expanded into
substring tests on the lower-cased name (`id$` anchors at the end of the
string; `shapelen`/`shape_len` subsume the optional `gth`; `geom` subsumes
`geometry`). -/
def techFieldMatch (k : String) : Bool :=
  let t := strLower k
  strContains t "shapearea" || strContains t "shape_area" ||
  strContains t "shapelen" || strContains t "shape_len" ||
  strContains t "objectid" || strContains t "fid" || strContains t "gid" ||
  strEndsWith t "id" || strContains t "globalid" || strContains t "perimeter" ||
  strContains t "created" || strContains t "updated" || strContains t "editor" ||
  strContains t "timestamp" || strContains t "st_area" || strContains t "st_length" ||
  strContains t "geom"

/-- `re.fullmatch(r"-?\d+(\.\d+)?", s)` on the trimmed, comma-normalized string. -/
def looksNumericStr (s : String) : Bool :=
  let t := commaToDot (strTrim s)
  let cs := t.data
  let cs := match cs with
    | '-' :: r => r
    | r => r
  match cs.splitOn '.' with
  | [a] => !a.isEmpty && a.all (·.isDigit)
  | [a, b] => (!a.isEmpty && a.all (·.isDigit)) && (!b.isEmpty && b.all (·.isDigit))
  | _ => false

/-- `_looks_numeric`: numeric types look numeric; strings via the regex;
`None` does not. -/
def _looks_numeric : Val → Bool
  | .vNum _ => true
  | .vStr s => looksNumericStr s
  | .vNull => false

/-- Digits-to-number helper for `_to_float`. -/
def digitsToNat (l : List Char) : ℕ :=
  l.foldl (fun a c => 10 * a + (c.toNat - '0'.toNat)) 0

/-- `float(s)` on a trimmed, comma-normalized string, for the plain decimal
forms `[+-]?digits`, `[+-]?digits.digits`, `[+-]?digits.`, `[+-]?.digits`.
(Python's `float` additionally accepts exponent/inf/nan forms; those never
arise from the WMS attribute values the pipeline handles and are not
modelled.) -/
def toFloatStr (s : String) : Option ℚ :=
  let t := commaToDot (strTrim s)
  let cs := t.data
  let (neg, cs) := match cs with
    | '-' :: r => (true, r)
    | '+' :: r => (false, r)
    | r => (false, r)
  let build : List Char → List Char → Option ℚ := fun a b =>
    if a.all (·.isDigit) && b.all (·.isDigit) && (!a.isEmpty || !b.isEmpty) then
      let m : ℚ := (digitsToNat a : ℚ) + (digitsToNat b : ℚ) / ((10 : ℚ) ^ b.length)
      some (if neg then -m else m)
    else none
  match cs.splitOn '.' with
  | [a] => if !a.isEmpty && a.all (·.isDigit) then
      some (if neg then -((digitsToNat a : ℚ)) else (digitsToNat a : ℚ))
    else none
  | [a, b] => build a b
  | _ => none

/-- `_to_float`: numbers pass through, strings are parsed, `None` fails. -/
def _to_float : Val → Option ℚ
  | .vNum q => some q
  | .vStr s => toFloatStr s
  | .vNull => none

/-- `_is_probably_code`: nonempty after strip, at most 8 chars, only
letters/digits/hyphen/underscore, not purely digits. -/
def _is_probably_code (s : String) : Bool :=
  let t := strTrim s
  if t = "" then false
  else if t.length > 8 then false
  else if !(t.data.all (fun c => c.isAlphanum || c = '_' || c = '-')) then false
  else if t.data.all (·.isDigit) then false
  else true

/-- `_normalize_code`: `(s or "").strip().upper()`. -/
def _normalize_code (s : String) : String := strUpper (strTrim s)

/-- `lower_map = {_canon_key(k): k for k in attrs.keys()}` followed by
`lower_map.get(ck)`: the **last** key whose canonical form is `ck`
(later comprehension entries overwrite earlier ones). -/
def lowerMapGet (attrs : List (String × Val)) (ck : String) : Option String :=
  attrs.foldl (fun acc kv => if _canon_key kv.1 = ck then some kv.1 else acc) none

/-- `attrs.get(k)` (dict keys are unique; first match). -/
def attrsGet (attrs : List (String × Val)) (k : String) : Option Val :=
  (attrs.find? (fun kv => kv.1 == k)).map (·.2)

/-- `_pick_attr(attrs, preferred_fields, numeric)` (lines 249-293).
`attrs` is the ordered field map; returns `(field, value)`, with `none`
standing for Python's `None` in the "nothing qualifies" result `("", None)`.
Three tiers: exact canonical-name match, substring match, kind-matching
fallback in map order. -/
def _pick_attr (attrs : List (String × Val)) (preferred_fields : List String)
    (numeric : Bool) : String × Option Val :=
  if attrs.isEmpty then ("", none) else
  let kindOk : Val → Bool := fun v =>
    if numeric then _looks_numeric v else !(_looks_numeric v)
  -- 1) exact
  let tier1 : Option (String × Val) := preferred_fields.findSome? fun pf =>
    match lowerMapGet attrs (_canon_key pf) with
    | none => none
    | some k =>
      match attrsGet attrs k with
      | none => none
      | some .vNull => none
      | some v =>
        if !techFieldMatch k && kindOk v then some (k, v) else none
  match tier1 with
  | some kv => (kv.1, some kv.2)
  | none =>
  -- 2) substring
  let tier2 : Option (String × Val) := preferred_fields.findSome? fun pf =>
    let pfl := _canon_key pf
    if pfl = "" then none else
    attrs.findSome? fun kv =>
      if techFieldMatch kv.1 then none
      else if strContains (_canon_key kv.1) pfl then
        match kv.2 with
        | .vNull => none
        | v => if kindOk v then some (kv.1, v) else none
      else none
  match tier2 with
  | some kv => (kv.1, some kv.2)
  | none =>
  -- 3) fallback
  let tier3 : Option (String × Val) := attrs.findSome? fun kv =>
    match kv.2 with
    | .vNull => none
    | v =>
      if techFieldMatch kv.1 then none
      else if kindOk v then some (kv.1, v) else none
  match tier3 with
  | some kv => (kv.1, some kv.2)
  | none => ("", none)

/-- `_bin_numeric(value, step)`: identity for non-positive step, otherwise
`round(value / step) * step` (Python `round`, i.e. half-to-even). -/
def _bin_numeric (value step : ℚ) : ℚ :=
  if step ≤ 0 then value else (rhe (value / step) : ℚ) * step

/-- Left-pad with zeros to width `w`. -/
def padZeros (s : String) (w : ℕ) : String :=
  if s.length < w then String.mk (List.replicate (w - s.length) '0') ++ s else s

/-- `f"{v:.df}"`: fixed-point formatting with `d` decimals, rounding half to
even. -/
def fixedDec (v : ℚ) (decimals : ℕ) : String :=
  let scaled : ℤ := rhe (v * ((10 : ℚ) ^ decimals))
  if decimals = 0 then toString scaled
  else
    let sign := if scaled < 0 then "-" else ""
    let a := scaled.natAbs
    let ip := a / 10 ^ decimals
    let fp := a % 10 ^ decimals
    sign ++ toString ip ++ "." ++ padZeros (toString fp) decimals

/-- `_format_numeric(value, unit, decimals)`: the fixed-point rendering,
suffixed with `" " + unit` when the unit string is nonempty. -/
def _format_numeric (value : ℚ) (unit : String) (decimals : ℕ) : String :=
  if unit ≠ "" then fixedDec value decimals ++ " " ++ unit
  else fixedDec value decimals

/-! ## 3) CRS / GEOMETRY: the point sampler (lines 334-356)

`random_points_in_polygon(geojson_geom, n, seed)` seeds the PRNG with
`seed or int(time.time())` (Python `or`: an explicit seed of `0` falls back
to the wall clock), then rejection-samples within the bounding box.  The
collaborators are abstracted at exactly the boundaries used by the source:
`contains p` is shapely's `poly.contains(Point(x, y))`, and `prng s t` is the
candidate point produced by the `t`-th pair of `random.uniform` draws after
`random.seed(s)` (the PRNG stream is a pure function of the seed). -/

/-- The `while len(pts) < n and tries < max_tries` loop, recursing on the
remaining tries `max_tries - tries`. -/
def sampleLoop (contains : Pt → Bool) (cand : ℕ → Pt) (n : ℕ) :
    ℕ → ℕ → List Pt → List Pt
  | _, 0, acc => acc
  | tries, remaining + 1, acc =>
    if acc.length < n then
      let t := tries + 1
      let p := cand t
      if contains p then sampleLoop contains cand n t remaining (acc ++ [p])
      else sampleLoop contains cand n t remaining acc
    else acc

/-- `random_points_in_polygon` (lines 334-356).  `seed`/`clock` are the
`seed` argument and `int(time.time())`; the retry budget is
`max(4000, n * 250)`; on shortfall it raises (`Except.error`). -/
def random_points_in_polygon (contains : Pt → Bool) (prng : ℕ → ℕ → Pt)
    (n seed clock : ℕ) : Except String (List Pt) :=
  let s := if seed = 0 then clock else seed
  let cand := prng s
  let max_tries := max 4000 (n * 250)
  let pts := sampleLoop contains cand n 0 max_tries []
  if pts.length < n then
    Except.error ("Could not sample " ++ toString n ++ " points inside AOI (got "
      ++ toString pts.length ++ ").")
  else Except.ok pts

/-! ## 7) EVALUATION + AOI ANALYSIS (lines 667-848) -/

/-- The result dict of a successful `evaluate_point` call:
`{"ok": True, "code", "label", "value", "picked_field"}`. -/
structure Ev where
  code : String
  label : String
  value : Option ℚ
  picked_field : String
deriving DecidableEq

/-- The pure core of `evaluate_point` (lines 675-690) for a categorical
source, given the parsed JSON `properties` of the first feature: resolve the
attribute with `_pick_attr(…, numeric=False)` and normalize.  Returns `none`
when the stringified value is empty and control falls through to the
raw-text fallback (lines 692-702, which parse the HTTP body text — an
external-collaborator concern not modelled here). -/
def evaluate_props_cat (props : List (String × Val)) (preferred : List String) :
    Option Ev :=
  let kv := _pick_attr props preferred false
  let s := match kv.2 with
    | none => ""
    | some w => strTrim (strOfVal w)
  if s ≠ "" then
    some { code := if _is_probably_code s then _normalize_code s else ""
           label := strTake s 220
           value := none
           picked_field := kv.1 }
  else none

/-- One bucket of the per-source `counts` dict: `{"code", "label", "count"}`. -/
structure CatBucket where
  code : String
  label : String
  count : ℕ
deriving DecidableEq

/-- One entry of a returned distribution:
`{"code", "label", "count", "share"}`. -/
structure DistBucket where
  code : String
  label : String
  count : ℕ
  share : ℚ
deriving DecidableEq

/-- `stats` of a numeric source result. -/
structure NumStats where
  unit : String
  mean : ℚ
  min : ℚ
  max : ℚ
  n : ℕ
deriving DecidableEq

/-- The fields of a `SourceAnalysisResult` the core computes (lines 753-765 /
830-848); transport fields (`src_id`, `src_title`, `layer`, `legend_url`,
`cards`) are presentation plumbing and omitted. -/
structure SourceAnalysisResult where
  dominant_label : String
  dominant_share_pct : ℚ
  heterogeneity_pct : ℚ
  distribution : List DistBucket
  stats : Option NumStats
deriving DecidableEq

/-- The per-point normalization in the categorical loop (lines 730-743):
lower-case the code, default the label, apply the BOART code→label
dictionary when the source is `boart1000ob`, and compute the grouping key. -/
def cat_point (isBoart : Bool) (ev : Ev) : String × String × String :=
  let code := strLower (strTrim ev.code)
  let label := strTrim (if ev.label = "" then "Unbekannt" else ev.label)
  let cl :=
    if isBoart then
      match boartLookup code with
      | some lbl => if code ≠ "" then (code, lbl) else fallbackLabel code label
      | none => fallbackLabel code label
    else (code, label)
  let key := if cl.1 ≠ "" then strUpper cl.1 else cl.2
  (key, cl.1, cl.2)
where
  /-- the `else` arm: try the lower-cased label as a dictionary key. -/
  fallbackLabel (code label : String) : String × String :=
    let l0 := strLower (strTrim label)
    match boartLookup l0 with
    | some lbl => (l0, lbl)
    | none => (code, label)

/-- `counts[key] = {"code": …, "label": …, "count": 0}` on first sight,
then `counts[key]["count"] += 1`; insertion order preserved. -/
def bump (acc : List (String × CatBucket)) (key code label : String) :
    List (String × CatBucket) :=
  match acc with
  | [] => [(key, { code := code, label := label, count := 1 })]
  | (k, b) :: rest =>
    if k = key then (k, { b with count := b.count + 1 }) :: rest
    else (k, b) :: bump rest key code label

/-- The categorical per-point loop of `analyze_points_for_source`
(lines 727-746).  `fetch p` is the whole per-point evaluation
(`evaluate_point`, i.e. the WMS `GetFeatureInfo` HTTP call plus attribute
resolution); a raised exception is `Except.error` and — exactly as in the
source, where the loop body has no handler — aborts the loop. -/
def catLoop (fetch : Pt → Except String Ev) (isBoart : Bool) :
    List Pt → List (String × CatBucket) →
    Except String (List (String × CatBucket))
  | [], acc => Except.ok acc
  | p :: rest, acc =>
    match fetch p with
    | Except.error e => Except.error e
    | Except.ok ev =>
      let t := cat_point isBoart ev
      let bucketCode := if t.2.1 ≠ "" then strUpper t.2.1 else ""
      catLoop fetch isBoart rest (bump acc t.1 bucketCode t.2.2)

/-- `summarize_distribution(values)` (lines 705-715): `total = sum or 1`,
stable sort by count descending (Python's `sorted(…, reverse=True)` is
stable; a stable sort under `b.count ≤ a.count` — here `List.insertionSort`,
whose output any stable sort produces — is the same stable descending
order), `share = 100.0 * count / total`. -/
def summarize_distribution (values : List CatBucket) : List DistBucket :=
  let s : ℕ := (values.map (·.count)).sum
  let total : ℕ := if s = 0 then 1 else s
  (values.insertionSort (fun a b => b.count ≤ a.count)).map
    (fun v => { code := v.code, label := v.label, count := v.count
                share := 100 * ((v.count : ℚ) / (total : ℚ)) })

/-- The categorical result assembly (lines 748-765). -/
def buildCat (counts : List (String × CatBucket)) : SourceAnalysisResult :=
  let dist := summarize_distribution (counts.map (·.2))
  let dominantShare : ℚ := match dist with
    | [] => 0
    | d :: _ => d.share
  let dominantLabel : String := match dist with
    | [] => "Unbekannt"
    | d :: _ => d.label
  let hetero : ℚ := 100 - dominantShare
  { dominant_label := dominantLabel
    dominant_share_pct := round2 dominantShare
    heterogeneity_pct := round2 hetero
    distribution := dist.take 12
    stats := none }

/-- `analyze_points_for_source` for a categorical source. -/
def analyze_cat (fetch : Pt → Except String Ev) (isBoart : Bool)
    (points : List Pt) : Except String SourceAnalysisResult :=
  (catLoop fetch isBoart points []).map buildCat

/-- A per-source entry of `api_analyze`'s `results` list: either the
source's analysis result or the `{"ok": False, …, "error": str(e)}` object
built by the per-source `except` handler (lines 952-960). -/
inductive SourceEntry where
  | result (r : SourceAnalysisResult)
  | errorEntry (e : String)
deriving DecidableEq

/-- The per-source body of `api_analyze`'s loop: run the source's analysis,
catching any exception into an error entry. -/
def run_source (fetch : Pt → Except String Ev) (isBoart : Bool)
    (points : List Pt) : SourceEntry :=
  match analyze_cat fetch isBoart points with
  | Except.ok r => SourceEntry.result r
  | Except.error e => SourceEntry.errorEntry e

/-- `binned_counts[b_label] = binned_counts.get(b_label, 0) + 1`,
insertion order preserved. -/
def bumpBin (bins : List (String × ℕ)) (label : String) : List (String × ℕ) :=
  match bins with
  | [] => [(label, 1)]
  | (k, c) :: rest =>
    if k = label then (k, c + 1) :: rest else (k, c) :: bumpBin rest label

/-- The bin label of one parsed value (lines 782-786): with a truthy
`bin_step`, bin to the nearest multiple and format with 0 decimals if
`bin_step ≥ 1` else 1; otherwise format the raw value at 1 decimal. -/
def numBinLabel : Option ℚ → String → ℚ → String
  | some st, unit, fv =>
    if st ≠ 0 then
      _format_numeric (_bin_numeric fv st) unit (if 1 ≤ st then 0 else 1)
    else _format_numeric fv unit 1
  | none, unit, fv => _format_numeric fv unit 1

/-- The parsed value of one evaluated point (lines 773-775):
`v = ev.get("value"); if v is None: v = _to_float(ev.get("label"))`. -/
def evValue (ev : Ev) : Option ℚ :=
  match ev.value with
  | some x => some x
  | none => toFloatStr ev.label

/-- The numeric per-point loop (lines 768-787): per point, take
`ev["value"]`, falling back to `_to_float(ev["label"])`; skip unparsable
points; collect exact values and binned label counts.  As in the
categorical loop, a fetch exception aborts the loop. -/
def numLoop (fetch : Pt → Except String Ev) (unit : String) (binStep : Option ℚ) :
    List Pt → List ℚ → List (String × ℕ) →
    Except String (List ℚ × List (String × ℕ))
  | [], vals, bins => Except.ok (vals, bins)
  | p :: rest, vals, bins =>
    match fetch p with
    | Except.error e => Except.error e
    | Except.ok ev =>
      match evValue ev with
      | none => numLoop fetch unit binStep rest vals bins
      | some fv =>
        numLoop fetch unit binStep rest (vals ++ [fv])
          (bumpBin bins (numBinLabel binStep unit fv))

/-- Python `min(values)` on a nonempty list ( `0` is a don't-care default). -/
def qMin : List ℚ → ℚ
  | [] => 0
  | x :: xs => xs.foldl min x

/-- Python `max(values)` on a nonempty list. -/
def qMax : List ℚ → ℚ
  | [] => 0
  | x :: xs => xs.foldl max x

/-- The numeric result assembly (lines 791-848): the degenerate
`"Unbekannt"` result when no value parsed, otherwise the distribution over
bin labels (stable sort by count descending), `dominant = dist[0]`,
`hetero = 100 - dominant.share`, and the exact-value statistics rounded to
3 decimals. -/
def buildNum (unit : String) (vb : List ℚ × List (String × ℕ)) :
    SourceAnalysisResult :=
  let values := vb.1
  let bins := vb.2
  if values = [] then
    { dominant_label := "Unbekannt"
      dominant_share_pct := 0
      heterogeneity_pct := 0
      distribution := [{ code := "", label := "Unbekannt", count := 0, share := 0 }]
      stats := none }
  else
    let mean_v : ℚ := values.sum / (values.length : ℚ)
    let min_v := qMin values
    let max_v := qMax values
    let s : ℕ := (bins.map (·.2)).sum
    let total : ℕ := if s = 0 then 1 else s
    let dist : List DistBucket := (bins.insertionSort (fun a b => b.2 ≤ a.2)).map
      (fun kv => { code := "", label := kv.1, count := kv.2
                   share := 100 * ((kv.2 : ℚ) / (total : ℚ)) })
    let dominantShare : ℚ := match dist with
      | [] => 0
      | d :: _ => d.share
    let dominantLabel : String := match dist with
      | [] => _format_numeric mean_v unit 1
      | d :: _ => d.label
    let hetero : ℚ := 100 - dominantShare
    { dominant_label := dominantLabel
      dominant_share_pct := round2 dominantShare
      heterogeneity_pct := round2 hetero
      distribution := dist.take 12
      stats := some { unit := unit, mean := round3 mean_v, min := round3 min_v
                      max := round3 max_v, n := values.length } }

/-- `analyze_points_for_source` for a numeric source. -/
def analyze_num (fetch : Pt → Except String Ev) (unit : String)
    (binStep : Option ℚ) (points : List Pt) :
    Except String SourceAnalysisResult :=
  (numLoop fetch unit binStep points [] []).map (buildNum unit)

/-! ## Collaborator instances used by witnesses and counterexamples -/

/-- Whether an embedded fallible computation succeeded (did not raise). -/
def exceptOk {ε α : Type} : Except ε α → Bool
  | Except.ok _ => true
  | Except.error _ => false

/-- A fetch that always succeeds with the plain label `"a"`. -/
def fetchA : Pt → Except String Ev :=
  fun _ => Except.ok { code := "", label := "a", value := none, picked_field := "" }

/-- A fetch that always succeeds with the numeric value `7`. -/
def fetchNum7 : Pt → Except String Ev :=
  fun _ => Except.ok { code := "", label := "7", value := some 7, picked_field := "" }

/-- A fetch that raises `"boom"` at the single point with longitude 1 and
succeeds everywhere else. -/
def fetchBoomAt1 : Pt → Except String Ev :=
  fun p => if p.1 = 1 then Except.error "boom"
    else Except.ok { code := "", label := "a", value := none, picked_field := "" }

/-- Three sample points; only the middle one makes `fetchBoomAt1` fail. -/
def threePts : List Pt := [((0 : ℚ), 0), ((1 : ℚ), 0), ((2 : ℚ), 0)]

/-- The categorical result of one `fetchA` point. -/
def catResA : SourceAnalysisResult :=
  { dominant_label := "a", dominant_share_pct := 100, heterogeneity_pct := 0,
    distribution := [{ code := "", label := "a", count := 1, share := 100 }],
    stats := none }

/-- The numeric result of one `fetchNum7` point (unit `""`, no bin step). -/
def numRes7 : SourceAnalysisResult :=
  { dominant_label := "7.0", dominant_share_pct := 100, heterogeneity_pct := 0,
    distribution := [{ code := "", label := "7.0", count := 1, share := 100 }],
    stats := some { unit := "", mean := 7, min := 7, max := 7, n := 1 } }

/-- The diagonal PRNG stream: seed `s` produces candidates `(s, i)`. -/
def prngDiag : ℕ → ℕ → Pt := fun s i => ((s : ℚ), (i : ℚ))

/-- A containment test accepting every candidate. -/
def containsAll : Pt → Bool := fun _ => true

/-- A fetch producing a distinct label per longitude. -/
def fetchLabelNum : Pt → Except String Ev :=
  fun p => Except.ok { code := "", label := "x" ++ toString p.1.num, value := none,
                       picked_field := "" }

/-- Thirteen sample points with thirteen distinct longitudes. -/
def thirteenPts : List Pt := (List.range 13).map (fun i => ((i : ℚ), 0))

/-! ## Proof developments -/

/-- `rhe` is the identity on integers. -/
theorem rhe_intCast (m : ℤ) : rhe (m : ℚ) = m := by
  unfold rhe
  simp [Int.floor_intCast]

/-- Complement identity for half-to-even rounding: for even `N`,
`rhe y + rhe (N - y) = N`. -/
theorem rhe_add_rev (y : ℚ) (N : ℤ) (hN : N % 2 = 0) :
    rhe y + rhe ((N : ℚ) - y) = N := by
  have h0 : (0 : ℚ) ≤ y - ⌊y⌋ := by
    have := Int.floor_le y
    linarith
  have h1 : y - ⌊y⌋ < 1 := by
    have := Int.lt_floor_add_one y
    push_cast at this
    linarith
  by_cases hz : y = (⌊y⌋ : ℚ)
  · have e1 : rhe y = ⌊y⌋ := by
      conv_lhs => rw [hz]
      exact rhe_intCast ⌊y⌋
    have e2 : rhe ((N : ℚ) - y) = N - ⌊y⌋ := by
      conv_lhs => rw [hz]
      rw [show ((N : ℚ) - (⌊y⌋ : ℚ)) = ((N - ⌊y⌋ : ℤ) : ℚ) by push_cast; ring]
      exact rhe_intCast (N - ⌊y⌋)
    omega
  · have hlt : (⌊y⌋ : ℚ) < y := lt_of_le_of_ne (Int.floor_le y) (fun h => hz h.symm)
    have hfl : ⌊(N : ℚ) - y⌋ = N - ⌊y⌋ - 1 := by
      rw [Int.floor_eq_iff]
      constructor
      · push_cast
        linarith
      · push_cast
        linarith
    unfold rhe
    rw [hfl]
    rw [show ((N : ℚ) - y - ((N - ⌊y⌋ - 1 : ℤ) : ℚ)) = 1 - (y - ⌊y⌋) by push_cast; ring]
    split_ifs <;> first | omega | linarith

/-- The two rounded shares of a source result are exact complements. -/
theorem round2_compl (s : ℚ) : round2 s + round2 (100 - s) = 100 := by
  have h := rhe_add_rev (100 * s) 10000 (by norm_num)
  unfold round2
  rw [show (100 : ℚ) * (100 - s) = ((10000 : ℤ) : ℚ) - 100 * s by push_cast; ring]
  rw [div_add_div_same]
  rw [show ((rhe (100 * s) : ℚ) + (rhe (((10000 : ℤ) : ℚ) - 100 * s) : ℚ))
      = ((rhe (100 * s) + rhe (((10000 : ℤ) : ℚ) - 100 * s) : ℤ) : ℚ) by push_cast; ring]
  rw [h]
  norm_num

/-- The categorical per-point loop succeeds iff every per-point fetch does. -/
theorem catLoop_ok_iff (fetch : Pt → Except String Ev) (b : Bool) :
    ∀ (pts : List Pt) (acc : List (String × CatBucket)),
      exceptOk (catLoop fetch b pts acc) = true ↔
        ∀ p ∈ pts, exceptOk (fetch p) = true := by
  intro pts
  induction pts with
  | nil => intro acc; simp [catLoop, exceptOk]
  | cons p rest ih =>
    intro acc
    simp only [catLoop]
    cases hf : fetch p with
    | error e =>
      constructor
      · intro h
        simp [exceptOk] at h
      · intro h
        have := h p (List.mem_cons_self p rest)
        rw [hf] at this
        simp [exceptOk] at this
    | ok ev =>
      rw [ih]
      simp [List.forall_mem_cons, hf, exceptOk]

/-- The numeric per-point loop succeeds iff every per-point fetch does. -/
theorem numLoop_ok_iff (fetch : Pt → Except String Ev) (unit : String)
    (binStep : Option ℚ) :
    ∀ (pts : List Pt) (vals : List ℚ) (bins : List (String × ℕ)),
      exceptOk (numLoop fetch unit binStep pts vals bins) = true ↔
        ∀ p ∈ pts, exceptOk (fetch p) = true := by
  intro pts
  induction pts with
  | nil => intro vals bins; simp [numLoop, exceptOk]
  | cons p rest ih =>
    intro vals bins
    cases hf : fetch p with
    | error e =>
      constructor
      · intro h
        simp only [numLoop, hf] at h
        simp [exceptOk] at h
      · intro h
        have := h p (List.mem_cons_self p rest)
        rw [hf] at this
        simp [exceptOk] at this
    | ok ev =>
      cases hv : evValue ev with
      | none =>
        simp only [numLoop, hf, hv]
        rw [ih]
        simp [List.forall_mem_cons, hf, exceptOk]
      | some fv =>
        simp only [numLoop, hf, hv]
        rw [ih]
        simp [List.forall_mem_cons, hf, exceptOk]

/-- C1 (counterexample): with three sampled points whose middle per-point
fetch raises while the other two succeed, the source produces **no**
`SourceAnalysisResult` at all — the exception aborts the whole per-source
analysis and `api_analyze` records a per-source error entry, contrary to
"the point is dropped, the remaining points are still processed, and the
per-source result is still produced". -/
theorem c1_counterexample :
    exceptOk (fetchBoomAt1 ((0 : ℚ), 0)) = true ∧
    exceptOk (fetchBoomAt1 ((1 : ℚ), 0)) = false ∧
    exceptOk (fetchBoomAt1 ((2 : ℚ), 0)) = true ∧
    run_source fetchBoomAt1 false threePts = SourceEntry.errorEntry "boom" := by
  decide

/-- C1 (amended): a per-point fetch failure is **not** swallowed: the
per-source analysis succeeds iff every per-point fetch succeeds, and any
fetch exception is captured by the orchestrator's per-source handler as an
error entry (isolating the failure per source, not per point). -/
theorem c1_fetch_failure_aborts_source :
    ∀ (fetch : Pt → Except String Ev) (b : Bool) (unit : String)
      (binStep : Option ℚ) (pts : List Pt),
      (exceptOk (analyze_cat fetch b pts) = true ↔
        ∀ p ∈ pts, exceptOk (fetch p) = true) ∧
      (exceptOk (analyze_num fetch unit binStep pts) = true ↔
        ∀ p ∈ pts, exceptOk (fetch p) = true) ∧
      (∀ e, analyze_cat fetch b pts = Except.error e →
        run_source fetch b pts = SourceEntry.errorEntry e) := by
  intro fetch b unit binStep pts
  refine ⟨?_, ?_, ?_⟩
  · rw [← catLoop_ok_iff fetch b pts []]
    unfold analyze_cat
    cases catLoop fetch b pts [] <;> simp [Except.map, exceptOk]
  · rw [← numLoop_ok_iff fetch unit binStep pts [] []]
    unfold analyze_num
    cases numLoop fetch unit binStep pts [] [] <;> simp [Except.map, exceptOk]
  · intro e he
    unfold run_source
    rw [he]

/-- Commuted form of `round2_compl`. -/
theorem round2_compl_rev (s : ℚ) : round2 (100 - s) + round2 s = 100 := by
  have := round2_compl s
  linarith

/-- C2: for every non-degenerate source analysis result (at least one
contributing point), the returned `heterogeneity_pct` plus
`dominant_share_pct` equals exactly 100 — in the categorical path and in the
numeric path (whose non-degeneracy is `stats` being present, i.e. at least
one parsed value); each value is rounded to 2 decimals before being
returned. -/
theorem c2_het_plus_dom_100 :
    (∀ (fetch : Pt → Except String Ev) (b : Bool) (pts : List Pt)
      (r : SourceAnalysisResult),
      analyze_cat fetch b pts = Except.ok r → pts ≠ [] →
      r.heterogeneity_pct + r.dominant_share_pct = 100) ∧
    (∀ (fetch : Pt → Except String Ev) (unit : String) (binStep : Option ℚ)
      (pts : List Pt) (r : SourceAnalysisResult),
      analyze_num fetch unit binStep pts = Except.ok r →
      r.stats.isSome = true →
      r.heterogeneity_pct + r.dominant_share_pct = 100) := by
  constructor
  · intro fetch b pts r hok _
    unfold analyze_cat at hok
    cases hcl : catLoop fetch b pts [] with
    | error e => rw [hcl] at hok; simp [Except.map] at hok
    | ok cs =>
      rw [hcl] at hok
      simp only [Except.map, Except.ok.injEq] at hok
      subst hok
      simp only [buildCat]
      exact round2_compl_rev _
  · intro fetch unit binStep pts r hok hst
    unfold analyze_num at hok
    cases hcl : numLoop fetch unit binStep pts [] [] with
    | error e => rw [hcl] at hok; simp [Except.map] at hok
    | ok vb =>
      rw [hcl] at hok
      simp only [Except.map, Except.ok.injEq] at hok
      subst hok
      by_cases hv : vb.1 = []
      · simp only [buildNum, if_pos hv] at hst
        simp at hst
      · simp only [buildNum, if_neg hv] at hst ⊢
        exact round2_compl_rev _

/-- C1 witness: with an all-succeeding fetch, a per-source result is
produced (instantiating the amended theorem at a concrete input). -/
theorem c1_witness :
    exceptOk (analyze_cat fetchA false [((0 : ℚ), 0)]) = true ∧
    exceptOk (analyze_num fetchNum7 "" none [((0 : ℚ), 0)]) = true :=
  ⟨(c1_fetch_failure_aborts_source fetchA false "" none [((0 : ℚ), 0)]).1.mpr
      (by decide),
   (c1_fetch_failure_aborts_source fetchNum7 false "" none
      [((0 : ℚ), 0)]).2.1.mpr (by decide)⟩

/-- C2 witness: the invariant checked on one concrete categorical and one
concrete numeric analysis. -/
theorem c2_witness :
    catResA.heterogeneity_pct + catResA.dominant_share_pct = 100 ∧
    numRes7.heterogeneity_pct + numRes7.dominant_share_pct = 100 :=
  ⟨c2_het_plus_dom_100.1 fetchA false [((0 : ℚ), 0)] catResA (by decide) (by decide),
   c2_het_plus_dom_100.2 fetchNum7 "" none [((0 : ℚ), 0)] numRes7 (by decide) (by decide)⟩

/-- Closed form of the rejection-sampling loop: starting at try counter
`tries` with `remaining` tries left, the loop returns the accumulator plus
the first `n - |acc|` contained candidates among the next `remaining`
draws. -/
theorem sampleLoop_eq (contains : Pt → Bool) (cand : ℕ → Pt) (n : ℕ) :
    ∀ (remaining tries : ℕ) (acc : List Pt),
      sampleLoop contains cand n tries remaining acc =
        acc ++ (((List.range remaining).map (fun i => cand (tries + 1 + i))).filter
          contains).take (n - acc.length) := by
  intro remaining
  induction remaining with
  | zero =>
    intro tries acc
    simp [sampleLoop]
  | succ r ih =>
    intro tries acc
    by_cases h : acc.length < n
    · simp only [sampleLoop, if_pos h]
      rw [List.range_succ_eq_map, List.map_cons, List.map_map]
      simp only [Nat.add_zero]
      have hmap : (List.range r).map ((fun i => cand (tries + 1 + i)) ∘ Nat.succ)
          = (List.range r).map (fun i => cand (tries + 1 + 1 + i)) := by
        apply List.map_congr_left
        intro a _
        simp only [Function.comp]
        rw [show tries + 1 + Nat.succ a = tries + 1 + 1 + a by omega]
      rw [hmap]
      have hsub : n - acc.length = (n - (acc.length + 1)) + 1 := by omega
      cases hc : contains (cand (tries + 1)) with
      | true =>
        rw [hsub]
        simp only [List.filter_cons, hc, if_pos, ite_true]
        rw [List.take_succ_cons]
        rw [ih (tries + 1) (acc ++ [cand (tries + 1)])]
        simp [List.append_assoc]
      | false =>
        simp only [List.filter_cons, hc]
        rw [ih (tries + 1) acc]
        simp
    · simp only [sampleLoop, if_neg h]
      rw [show n - acc.length = 0 by omega]
      simp

/-- Characterization of `random_points_in_polygon`: it returns the first `n`
contained candidates among the `max 4000 (n*250)` draws of the seeded
stream, or raises if fewer than `n` of them are contained. -/
theorem random_points_in_polygon_eq (contains : Pt → Bool) (prng : ℕ → ℕ → Pt)
    (n seed clock : ℕ) :
    random_points_in_polygon contains prng n seed clock =
      if ((((List.range (max 4000 (n * 250))).map
            (fun i => prng (if seed = 0 then clock else seed) (i + 1))).filter
          contains).take n).length < n
      then Except.error ("Could not sample " ++ toString n ++ " points inside AOI (got "
        ++ toString ((((List.range (max 4000 (n * 250))).map
              (fun i => prng (if seed = 0 then clock else seed) (i + 1))).filter
            contains).take n).length ++ ").")
      else Except.ok ((((List.range (max 4000 (n * 250))).map
            (fun i => prng (if seed = 0 then clock else seed) (i + 1))).filter
          contains).take n) := by
  have hidx : (List.range (max 4000 (n * 250))).map
      (fun i => prng (if seed = 0 then clock else seed) (0 + 1 + i))
        = (List.range (max 4000 (n * 250))).map
      (fun i => prng (if seed = 0 then clock else seed) (i + 1)) :=
    List.map_congr_left (fun a _ => by rw [show 0 + 1 + a = a + 1 by omega])
  unfold random_points_in_polygon
  simp only [sampleLoop_eq, List.length_nil, Nat.sub_zero, List.nil_append, hidx]

/-- C3: the sampler, given the containment test, candidate stream, and
target count `n`, either returns a list of exactly `n` points, each of
which satisfies the full polygon containment test, or fails after
exhausting the retry budget of `max 4000 (n*250)` candidate draws (fewer
than `n` of those draws were contained); it never returns a point outside
the polygon and never returns fewer than `n` points. -/
theorem c3_sampler_contract :
    ∀ (contains : Pt → Bool) (prng : ℕ → ℕ → Pt) (n seed clock : ℕ),
      (∀ l, random_points_in_polygon contains prng n seed clock = Except.ok l →
        l.length = n ∧ ∀ p ∈ l, contains p = true) ∧
      (∀ e, random_points_in_polygon contains prng n seed clock = Except.error e →
        (((List.range (max 4000 (n * 250))).map
            (fun i => prng (if seed = 0 then clock else seed) (i + 1))).filter
          contains).length < n) := by
  intro contains prng n seed clock
  rw [random_points_in_polygon_eq]
  constructor
  · intro l hok
    by_cases hlen : ((((List.range (max 4000 (n * 250))).map
        (fun i => prng (if seed = 0 then clock else seed) (i + 1))).filter
        contains).take n).length < n
    · rw [if_pos hlen] at hok
      cases hok
    · rw [if_neg hlen] at hok
      injection hok with h1
      subst h1
      constructor
      · have := List.length_take n (((List.range (max 4000 (n * 250))).map
          (fun i => prng (if seed = 0 then clock else seed) (i + 1))).filter contains)
        omega
      · intro p hp
        have hpF := List.take_subset n _ hp
        exact (List.mem_filter.mp hpF).2
  · intro e herr
    by_cases hlen : ((((List.range (max 4000 (n * 250))).map
        (fun i => prng (if seed = 0 then clock else seed) (i + 1))).filter
        contains).take n).length < n
    · have := List.length_take n (((List.range (max 4000 (n * 250))).map
        (fun i => prng (if seed = 0 then clock else seed) (i + 1))).filter contains)
      omega
    · rw [if_neg hlen] at herr
      cases herr

/-- C3 witness: at a concrete contained-everywhere instance with `n = 2`,
the sampler returns exactly 2 points, all contained. -/
theorem c3_witness :
    ([((1 : ℚ), 1), ((1 : ℚ), 2)] : List Pt).length = 2 ∧
    (∀ p ∈ ([((1 : ℚ), 1), ((1 : ℚ), 2)] : List Pt), containsAll p = true) :=
  (c3_sampler_contract containsAll prngDiag 2 1 0).1 [((1 : ℚ), 1), ((1 : ℚ), 2)]
    (by decide)

/-- C8 (amended): with an explicitly supplied **nonzero** seed the sampler
is a pure function of (geometry, n, seed) — the wall clock is ignored, so
two runs agree. -/
theorem c8_nonzero_seed_deterministic :
    ∀ (contains : Pt → Bool) (prng : ℕ → ℕ → Pt) (n seed c1 c2 : ℕ), seed ≠ 0 →
      random_points_in_polygon contains prng n seed c1
        = random_points_in_polygon contains prng n seed c2 := by
  intro contains prng n seed c1 c2 h
  unfold random_points_in_polygon
  simp only [if_neg h]

/-- C8 witness: two runs with seed 1 and different wall clocks agree. -/
theorem c8_witness :
    random_points_in_polygon containsAll prngDiag 1 1 5
      = random_points_in_polygon containsAll prngDiag 1 1 99 :=
  c8_nonzero_seed_deterministic containsAll prngDiag 1 1 5 99 (by decide)

/-- C8 (counterexample): the seed `0` — which a caller can supply
explicitly — falls back to the wall clock (`seed or int(time.time())`), so
two runs with the same geometry, `n`, and explicit seed `0` differ when the
clock has moved. -/
theorem c8_counterexample :
    random_points_in_polygon containsAll prngDiag 1 0 1
      ≠ random_points_in_polygon containsAll prngDiag 1 0 2 := by
  decide

/-- C4: the call-budget computation clamps the requested count into
`[5, MAX_SAMPLES]`, takes `per_source_budget = max 5 (MAX_FEATURE_CALLS /
n_sources)` and `effective = min` of the two; for requested 25, 4 sources,
ceiling 60 this yields 15. -/
theorem c4_call_budget :
    (∀ requested n_sources : ℕ, 1 ≤ n_sources →
      api_budget requested n_sources
        = min (max 5 (min requested 80)) (max 5 (60 / n_sources))) ∧
    api_budget 25 4 = 15 := by
  constructor
  · intro r ns h
    unfold api_budget MAX_SAMPLES MAX_FEATURE_CALLS
    rw [max_eq_right h]
  · decide

/-- C4 witness: the formula instantiated at requested 25, 4 sources. -/
theorem c4_witness :
    api_budget 25 4 = min (max 5 (min 25 80)) (max 5 (60 / 4)) :=
  c4_call_budget.1 25 4 (by decide)

/-- Helper: the only keys the quality dictionary can find. -/
theorem quality_key_cases (nm : String)
    (h : (QUALITY_TO_SAMPLES.find? (fun kv => kv.1 == nm)).isSome = true) :
    nm = "fast" ∨ nm = "standard" ∨ nm = "detailed" := by
  rw [List.find?_isSome] at h
  obtain ⟨kv, hmem, hbeq⟩ := h
  have hk : kv.1 = nm := eq_of_beq hbeq
  simp only [QUALITY_TO_SAMPLES, List.mem_cons, List.not_mem_nil, or_false] at hmem
  rcases hmem with h1 | h1 | h1
  · rw [h1] at hk; exact Or.inl hk.symm
  · rw [h1] at hk; exact Or.inr (Or.inl hk.symm)
  · rw [h1] at hk; exact Or.inr (Or.inr hk.symm)

/-- C9 (counterexample): supplying the in-range integer sample count `30`
directly (as the request's quality value) does not use 30 as the requested
sample count — it silently falls back to the `"standard"` preset of 25. -/
theorem c9_counterexample :
    parse_quality (some "30") = "standard" ∧ requested_of (some "30") = 25 ∧
    (25 : ℕ) ≠ 30 := by
  decide

/-- C9 (amended): the analyze operation accepts only the three quality
presets; the requested sample count is always one of 15, 25, 50 — a free
integer sample count is never used. -/
theorem c9_only_presets :
    ∀ q : Option String,
      requested_of q = 15 ∨ requested_of q = 25 ∨ requested_of q = 50 := by
  intro q
  cases q with
  | none => decide
  | some s =>
    by_cases hse : s = ""
    · subst hse; decide
    · unfold requested_of parse_quality
      simp only [if_neg hse]
      by_cases h : (QUALITY_TO_SAMPLES.find?
          (fun kv => kv.1 == strLower (strTrim s))).isSome = true
      · rw [if_pos h]
        rcases quality_key_cases _ h with h1 | h1 | h1 <;> rw [h1] <;> decide
      · rw [if_neg h]
        decide

/-- C10 (counterexample): `"FAST"` is a string other than `"fast"`,
`"standard"`, `"detailed"`, yet the request resolves to the `fast` preset
(15 samples), not to `standard` (25) — the membership test runs after
`.strip().lower()` normalization. -/
theorem c10_counterexample :
    parse_quality (some "FAST") = "fast" ∧ requested_of (some "FAST") = 15 ∧
    ("FAST" : String) ≠ "fast" ∧ ("FAST" : String) ≠ "standard" ∧
    ("FAST" : String) ≠ "detailed" := by
  decide

/-- C10 (amended): a missing or empty quality field, and any string whose
trimmed lower-cased form is not a preset name, is not rejected: the quality
silently falls back to `"standard"` (25 requested samples); a string that
normalizes to a preset name selects that preset instead. -/
theorem c10_quality_fallback :
    (parse_quality none = "standard" ∧ requested_of none = 25) ∧
    (parse_quality (some "") = "standard" ∧ requested_of (some "") = 25) ∧
    (∀ s : String, strLower (strTrim s) ∉ (["fast", "standard", "detailed"] : List String) →
      parse_quality (some s) = "standard" ∧ requested_of (some s) = 25) := by
  refine ⟨by decide, by decide, ?_⟩
  intro s h
  have hnot : ¬((QUALITY_TO_SAMPLES.find?
      (fun kv => kv.1 == strLower (strTrim s))).isSome = true) := by
    intro hcontra
    rcases quality_key_cases _ hcontra with h1 | h1 | h1 <;> rw [h1] at h <;> simp at h
  by_cases hse : s = ""
  · subst hse
    exact ⟨by decide, by decide⟩
  · have hpq : parse_quality (some s) = "standard" := by
      unfold parse_quality
      simp only [if_neg hse]
      rw [if_neg hnot]
    refine ⟨hpq, ?_⟩
    unfold requested_of
    rw [hpq]
    decide

/-- C10 witness: a concrete unrecognized quality string. -/
theorem c10_witness :
    parse_quality (some "bogus") = "standard" ∧ requested_of (some "bogus") = 25 :=
  c10_quality_fallback.2.2 "bogus" (by decide)

/-- The rounded integer is within a half of the value. -/
theorem rhe_close (y : ℚ) : |y - (rhe y : ℚ)| ≤ 1 / 2 := by
  have h0 : (0 : ℚ) ≤ y - ⌊y⌋ := by
    have := Int.floor_le y
    linarith
  have h1 : y - ⌊y⌋ < 1 := by
    have := Int.lt_floor_add_one y
    push_cast at this
    linarith
  unfold rhe
  split_ifs <;> (rw [abs_le]; push_cast; constructor <;> linarith)

/-- C7: with a positive bin width `w`, binning maps a value to
`round(v / w) * w` — an integer multiple of `w` within `w/2` of the value —
and the bin label is formatted with 0 decimals when `w ≥ 1`, else 1,
suffixed with the unit; in particular `17.3` with width `5.0` lands in the
bin labeled `15`. -/
theorem c7_numeric_binning :
    (∀ v w : ℚ, 0 < w →
      _bin_numeric v w = (rhe (v / w) : ℚ) * w ∧
      (∃ k : ℤ, _bin_numeric v w = (k : ℚ) * w) ∧
      |v - _bin_numeric v w| ≤ w / 2) ∧
    (∀ (v w : ℚ) (unit : String), 0 < w →
      numBinLabel (some w) unit v
        = _format_numeric (_bin_numeric v w) unit (if 1 ≤ w then 0 else 1)) ∧
    _bin_numeric (173 / 10) 5 = 15 ∧
    numBinLabel (some 5) "mm" (173 / 10) = "15 mm" := by
  refine ⟨?_, ?_, by decide, by decide⟩
  · intro v w hw
    unfold _bin_numeric
    rw [if_neg (not_le.mpr hw)]
    refine ⟨rfl, ⟨rhe (v / w), rfl⟩, ?_⟩
    have hc := rhe_close (v / w)
    have hne : w ≠ 0 := ne_of_gt hw
    have heq : v - (rhe (v / w) : ℚ) * w = (v / w - (rhe (v / w) : ℚ)) * w := by
      field_simp
      ring
    rw [heq, abs_mul, abs_of_pos hw]
    have := mul_le_mul_of_nonneg_right hc (le_of_lt hw)
    linarith
  · intro v w unit hw
    simp only [numBinLabel]
    rw [if_pos (ne_of_gt hw)]

/-- C6: on the raw map `{"BODART_GR": "ls", "OBJECTID": 1}` with hint
`["bodart_gr"]` and categorical target kind, resolution returns
`("BODART_GR", "ls")` (exact tier; `OBJECTID` is technical), the
normalization classifies `"ls"` as a code, and the BOART dictionary step
maps it to the canonical texture-class label `"Lehmsande (ls)"`. -/
theorem c6_bodart_resolution :
    _pick_attr [("BODART_GR", Val.vStr "ls"), ("OBJECTID", Val.vNum 1)]
        ["bodart_gr"] false
      = ("BODART_GR", some (Val.vStr "ls")) ∧
    evaluate_props_cat [("BODART_GR", Val.vStr "ls"), ("OBJECTID", Val.vNum 1)]
        ["bodart_gr"]
      = some { code := "LS", label := "ls", value := none,
               picked_field := "BODART_GR" } ∧
    boartLookup "ls" = some "Lehmsande (ls)" ∧
    cat_point true { code := "LS", label := "ls", value := none,
                     picked_field := "BODART_GR" }
      = ("LS", "ls", "Lehmsande (ls)") := by
  decide

/-- Share sums over the full (uncapped) distribution are exactly 100 when
the total count is positive. -/
theorem sum_shares (values : List CatBucket)
    (h0 : 0 < (values.map (·.count)).sum) :
    ((summarize_distribution values).map (·.share)).sum = 100 := by
  have hS0 : ¬((values.map (·.count)).sum = 0) := by omega
  unfold summarize_distribution
  simp only [if_neg hS0]
  rw [(((List.perm_insertionSort _ values).map _).map _).sum_eq]
  have hgen : ∀ (t : ℚ) (l : List CatBucket),
      ((l.map (fun v : CatBucket =>
          ({ code := v.code, label := v.label, count := v.count,
             share := 100 * ((v.count : ℚ) / t) } : DistBucket))).map
        (fun x : DistBucket => x.share)).sum
        = 100 * ((((l.map (·.count)).sum : ℕ) : ℚ) / t) := by
    intro t l
    induction l with
    | nil => simp
    | cons a rest ih =>
      simp only [List.map_cons, List.sum_cons, ih]
      push_cast
      ring
  rw [hgen ((((values.map (·.count)).sum : ℕ) : ℚ))]
  have hne : (((values.map (·.count)).sum : ℕ) : ℚ) ≠ 0 :=
    Nat.cast_ne_zero.mpr hS0
  rw [div_self hne, mul_one]

/-- C5 (amended): whenever the total point count contributing to a
source's distribution is positive **and** there are at most 12 distinct
buckets (so the 12-bucket cap returns the whole distribution), the sum of
`share_pct` over the returned distribution is exactly 100. -/
theorem c5_share_sum_capped :
    ∀ (fetch : Pt → Except String Ev) (b : Bool) (pts : List Pt)
      (cs : List (String × CatBucket)),
      catLoop fetch b pts [] = Except.ok cs →
      0 < (cs.map (·.2.count)).sum →
      cs.length ≤ 12 →
      (analyze_cat fetch b pts).map
        (fun r => (r.distribution.map (·.share)).sum) = Except.ok 100 := by
  intro fetch b pts cs hcl h0 h12
  unfold analyze_cat
  rw [hcl]
  simp only [Except.map, Except.ok.injEq]
  simp only [buildCat]
  have hlen : (summarize_distribution (cs.map (·.2))).length ≤ 12 := by
    unfold summarize_distribution
    simp only [List.length_map, List.length_insertionSort]
    omega
  rw [List.take_of_length_le hlen]
  apply sum_shares
  simpa [List.map_map, Function.comp] using h0

/-- C5 (counterexample): 13 points with 13 distinct labels give 13 buckets
of count 1; the returned distribution is capped at 12 buckets, so the
share sum of the returned distribution is 1200/13 ≈ 92.3 — not within
±0.1 of 100 — although the total count (13) is positive. -/
theorem c5_counterexample :
    (catLoop fetchLabelNum false thirteenPts []).map
        (fun cs => (cs.map (·.2.count)).sum) = Except.ok 13 ∧
    (analyze_cat fetchLabelNum false thirteenPts).map
        (fun r => (r.distribution.map (·.share)).sum) = Except.ok (1200 / 13) ∧
    ¬((100 : ℚ) - 1 / 10 ≤ 1200 / 13) := by
  decide

/-- C5 witness: one point, one bucket — the share sum of the returned
distribution is exactly 100. -/
theorem c5_witness :
    (analyze_cat fetchA false [((0 : ℚ), 0)]).map
      (fun r => (r.distribution.map (·.share)).sum) = Except.ok 100 :=
  c5_share_sum_capped fetchA false [((0 : ℚ), 0)]
    [("a", { code := "", label := "a", count := 1 })]
    (by decide) (by decide) (by decide)

/-- C7 witness: the binning contract instantiated at value 17.3, width 5,
unit "mm". -/
theorem c7_witness :
    _bin_numeric (173 / 10) 5 = (rhe ((173 : ℚ) / 10 / 5) : ℚ) * 5 ∧
    |(173 : ℚ) / 10 - _bin_numeric (173 / 10) 5| ≤ 5 / 2 ∧
    numBinLabel (some 5) "mm" (173 / 10)
      = _format_numeric (_bin_numeric (173 / 10) 5) "mm"
          (if (1 : ℚ) ≤ 5 then 0 else 1) :=
  ⟨(c7_numeric_binning.1 (173 / 10) 5 (by decide)).1,
   (c7_numeric_binning.1 (173 / 10) 5 (by decide)).2.2,
   c7_numeric_binning.2.1 (173 / 10) 5 "mm" (by decide)⟩

end FlBgrSoil
